import Mathlib

/-!
Shallow embedding of the eekboard keyboard state machine
(`eek-keyboard.c`): the group/level symbol index, the modifier mask,
the three modifier behaviors, the press/release handlers and the
`symbol-index-changed` notification, plus keycode lookup over sections.

Machine integers: `modifiers` is a C `guint` (32-bit); all masks handled
by the program are below `2^32`, and the only operation where width
matters is the bitwise complement in `modifiers &= ~modifier`, embedded
as AND with the 32-bit complement `guintNot`.  `group`/`level` are C
`gint`, embedded as `Int`.
-/

/-- Modelled from the spec: the `EekModifierType` bit constants live in
`eek-types.h`, which is not part of the corpus; the spec only requires
that SHIFT and MOD5 are distinct single bits of the mask (they mirror
the GDK bits `1 << 0` and `1 << 7`). -/
def EEK_SHIFT_MASK : Nat := 1

/-- Modelled from the spec: the MOD5 modifier bit, see `EEK_SHIFT_MASK`. -/
def EEK_MOD5_MASK : Nat := 128

/-- Bitwise complement of a C `guint` (32-bit unsigned). -/
def guintNot (m : Nat) : Nat := m ^^^ (2 ^ 32 - 1)

/-- The `EekModifierBehavior` enumeration. -/
inductive EekModifierBehavior
  | NONE
  | LATCH
  | LOCK
deriving DecidableEq

open EekModifierBehavior

/-- An `EekSymbol`, restricted to the one attribute the keyboard state
machine reads: its modifier mask (`eek_symbol_get_modifier_mask`). -/
structure EekSymbol where
  modifier_mask : Nat
deriving DecidableEq

/-- An `EekKey`: a stable keycode plus its symbol matrix.
`get_symbol_at_index` embeds `eek_key_get_symbol_at_index` (the sparse per-key `(group, level) → Symbol` table; a missing cell is `Option.none`). -/
structure EekKey where
  keycode : Nat
  get_symbol_at_index : Int → Int → Option EekSymbol

/-- The mutable fields of `EekKeyboardPrivate` that the press/release
logic touches: group, level, modifier behavior and modifier mask. -/
structure EekKeyboardState where
  group : Int
  level : Int
  modifier_behavior : EekModifierBehavior
  modifiers : Nat
deriving DecidableEq

/-- `eek_keyboard_init`: group 0, level 0, behavior NONE, empty mask. -/
def eek_keyboard_init : EekKeyboardState :=
  { group := 0, level := 0, modifier_behavior := NONE, modifiers := 0 }

/-- `eek_keyboard_set_modifier_behavior`. -/
def eek_keyboard_set_modifier_behavior (s : EekKeyboardState)
    (b : EekModifierBehavior) : EekKeyboardState :=
  { s with modifier_behavior := b }

/-- `eek_keyboard_real_set_symbol_index`: store the new `(group, level)`
and emit one `symbol-index-changed` notification exactly when the pair
changed.  The second component is the list of emitted notifications. -/
def eek_keyboard_real_set_symbol_index (s : EekKeyboardState)
    (group level : Int) : EekKeyboardState × List (Int × Int) :=
  if s.group ≠ group ∨ s.level ≠ level then
    ({ s with group := group, level := level }, [(group, level)])
  else
    (s, [])

/-- `eek_keyboard_set_level`: keep the current group. -/
def eek_keyboard_set_level (s : EekKeyboardState) (level : Int) :
    EekKeyboardState × List (Int × Int) :=
  eek_keyboard_real_set_symbol_index s s.group level

/-- `eek_keyboard_set_group`: keep the current level. -/
def eek_keyboard_set_group (s : EekKeyboardState) (group : Int) :
    EekKeyboardState × List (Int × Int) :=
  eek_keyboard_real_set_symbol_index s group s.level

/-- The level computed by `set_level_from_modifiers`:
bit 2 from MOD5, bit 1 from SHIFT. -/
def set_level_from_modifiers_level (modifiers : Nat) : Nat :=
  let l0 : Nat := 0
  let l1 : Nat := if modifiers &&& EEK_MOD5_MASK ≠ 0 then l0 ||| 2 else l0
  if modifiers &&& EEK_SHIFT_MASK ≠ 0 then l1 ||| 1 else l1

/-- `set_level_from_modifiers`: recompute the level from the mask. -/
def set_level_from_modifiers (s : EekKeyboardState) :
    EekKeyboardState × List (Int × Int) :=
  eek_keyboard_set_level s (Int.ofNat (set_level_from_modifiers_level s.modifiers))

/-- `eek_keyboard_real_key_pressed`: under LATCH clear the mask first;
resolve the symbol of the key at the current `(group, level)` (early return
when absent); OR a non-zero symbol mask in under NONE/LATCH, XOR it in
under LOCK; finally recompute the level from the mask. -/
def eek_keyboard_real_key_pressed (s : EekKeyboardState) (key : EekKey) :
    EekKeyboardState × List (Int × Int) :=
  let s1 := if s.modifier_behavior = LATCH then { s with modifiers := 0 } else s
  match key.get_symbol_at_index s1.group s1.level with
  | Option.none => (s1, [])
  | Option.some symbol =>
    let modifier := symbol.modifier_mask
    let s2 :=
      if modifier ≠ 0 then
        if s1.modifier_behavior = NONE ∨ s1.modifier_behavior = LATCH then
          { s1 with modifiers := s1.modifiers ||| modifier }
        else if s1.modifier_behavior = LOCK then
          { s1 with modifiers := s1.modifiers ^^^ modifier }
        else s1
      else s1
    set_level_from_modifiers s2

/-- `eek_keyboard_real_key_released`: resolve the symbol at the current
`(group, level)` (early return when absent); under NONE clear a
non-zero symbol mask from the modifiers; recompute the level. -/
def eek_keyboard_real_key_released (s : EekKeyboardState) (key : EekKey) :
    EekKeyboardState × List (Int × Int) :=
  match key.get_symbol_at_index s.group s.level with
  | Option.none => (s, [])
  | Option.some symbol =>
    let modifier := symbol.modifier_mask
    let s1 :=
      if modifier ≠ 0 then
        if s.modifier_behavior = NONE then
          { s with modifiers := s.modifiers &&& guintNot modifier }
        else s
      else s
    set_level_from_modifiers s1

/-- The modifier mask after a press resolves a symbol of mask `m`, as a
function of the behavior and the prior mask `μ` (under LATCH the prior
mask was already reset to 0, so the result is just `m`). -/
def pressMods (b : EekModifierBehavior) (μ m : Nat) : Nat :=
  match b with
  | NONE => if m ≠ 0 then μ ||| m else μ
  | LATCH => m
  | LOCK => if m ≠ 0 then μ ^^^ m else μ

/-- The modifier mask after a release resolves a symbol of mask `m`. -/
def releaseMods (b : EekModifierBehavior) (μ m : Nat) : Nat :=
  if m ≠ 0 ∧ b = NONE then μ &&& guintNot m else μ

/-- An event for the dispatcher: the key, and `true` for press. -/
def applyEvent (s : EekKeyboardState) (e : EekKey × Bool) : EekKeyboardState :=
  if e.2 then (eek_keyboard_real_key_pressed s e.1).1
  else (eek_keyboard_real_key_released s e.1).1

/-- A run of the machine: configure the behavior on the fresh keyboard
state, then process the events in order. -/
def runEvents (b : EekModifierBehavior) (es : List (EekKey × Bool)) :
    EekKeyboardState :=
  es.foldl applyEvent (eek_keyboard_set_modifier_behavior eek_keyboard_init b)

/-- The level/mask coherence predicate: the stored level is the one
`set_level_from_modifiers` derives from the stored mask. -/
def Consistent (s : EekKeyboardState) : Prop :=
  s.level = Int.ofNat (set_level_from_modifiers_level s.modifiers)

/-- A press immediately followed by the matching release. -/
def pressReleasePair (k : EekKey) (s : EekKeyboardState) : EekKeyboardState :=
  (eek_keyboard_real_key_released (eek_keyboard_real_key_pressed s k).1 k).1

/-- Sample key: a Shift key carrying `EEK_SHIFT_MASK` at every cell. -/
def shiftKey : EekKey := ⟨10, fun _ _ => Option.some ⟨EEK_SHIFT_MASK⟩⟩

/-- Sample key: a Mod5 key carrying `EEK_MOD5_MASK` at every cell. -/
def mod5Key : EekKey := ⟨11, fun _ _ => Option.some ⟨EEK_MOD5_MASK⟩⟩

/-- Sample key: a key with no symbol at any cell. -/
def emptyKey : EekKey := ⟨12, fun _ _ => Option.none⟩

/-- Sample state: LATCH behavior with Shift latched (level 1). -/
def latchShiftState : EekKeyboardState :=
  { group := 0, level := 1, modifier_behavior := LATCH, modifiers := EEK_SHIFT_MASK }

/-- Sample state: NONE behavior with Shift held (level 1). -/
def noneShiftState : EekKeyboardState :=
  { group := 0, level := 1, modifier_behavior := NONE, modifiers := EEK_SHIFT_MASK }

/-- Sample state: LOCK behavior, empty mask, level 0. -/
def lockBaseState : EekKeyboardState :=
  { group := 0, level := 0, modifier_behavior := LOCK, modifiers := 0 }

/-- An `EekSection`: an ordered sequence of keys (insertion order). -/
structure EekSection where
  keys : List EekKey

/-- Modelled from the spec: `eek_section_find_key_by_keycode` lives in
`eek-section.c`, which is not part of the corpus; per the contract it
returns the first Key in the insertion order of the section whose keycode
matches, or none. -/
def eek_section_find_key_by_keycode (sec : EekSection) (keycode : Nat) :
    Option EekKey :=
  sec.keys.find? (fun k => k.keycode == keycode)

/-- `eek_keyboard_real_find_key_by_keycode`: scan the sections of the keyboard
with the per-section search, first success wins.  The generic container
traversal (`eek_container_find`, in `eek-container.c`, not part of the
corpus) is modelled from the spec as insertion-order iteration stopping
at the first child whose callback succeeds.  The search is a pure
function of the section list: it touches no keyboard state. -/
def eek_keyboard_real_find_key_by_keycode (sections : List EekSection)
    (keycode : Nat) : Option EekKey :=
  match sections with
  | [] => Option.none
  | sec :: rest =>
    match eek_section_find_key_by_keycode sec keycode with
    | Option.some k => Option.some k
    | Option.none => eek_keyboard_real_find_key_by_keycode rest keycode

/-- The reading the spec gives of the contract, as its own definition: the first
match over all keys of all sections, flattened in insertion order. -/
def spec_find_key_by_keycode (sections : List EekSection) (keycode : Nat) :
    Option EekKey :=
  (sections.foldr (fun sec acc => sec.keys ++ acc) []).find?
    (fun k => k.keycode == keycode)

theorem set_symbol_index_fst (s : EekKeyboardState) (g l : Int) :
    (eek_keyboard_real_set_symbol_index s g l).1 = { s with group := g, level := l } := by
  unfold eek_keyboard_real_set_symbol_index
  split
  · rfl
  · next h =>
      push_neg at h
      cases s
      simp_all

theorem set_symbol_index_snd (s : EekKeyboardState) (g l : Int) :
    (eek_keyboard_real_set_symbol_index s g l).2 =
      if s.group = g ∧ s.level = l then [] else [(g, l)] := by
  unfold eek_keyboard_real_set_symbol_index
  split
  · next h =>
      rw [if_neg]
      intro hc
      rcases h with h | h <;> exact h (by simp [hc.1, hc.2])
  · next h =>
      push_neg at h
      rw [if_pos ⟨h.1, h.2⟩]

theorem set_level_from_modifiers_eq (s : EekKeyboardState) :
    set_level_from_modifiers s =
      ({ s with level := Int.ofNat (set_level_from_modifiers_level s.modifiers) },
       if s.level = Int.ofNat (set_level_from_modifiers_level s.modifiers) then []
       else [(s.group, Int.ofNat (set_level_from_modifiers_level s.modifiers))]) := by
  unfold set_level_from_modifiers eek_keyboard_set_level
  rw [Prod.ext_iff]
  refine ⟨set_symbol_index_fst .., ?_⟩
  rw [set_symbol_index_snd]
  simp

theorem key_pressed_eq_of_no_symbol (s : EekKeyboardState) (k : EekKey)
    (h : k.get_symbol_at_index s.group s.level = Option.none) :
    eek_keyboard_real_key_pressed s k =
      (if s.modifier_behavior = LATCH then { s with modifiers := 0 } else s, []) := by
  unfold eek_keyboard_real_key_pressed
  by_cases hb : s.modifier_behavior = LATCH <;> simp [hb, h]

theorem key_pressed_eq_of_symbol (s : EekKeyboardState) (k : EekKey) (sym : EekSymbol)
    (h : k.get_symbol_at_index s.group s.level = Option.some sym) :
    eek_keyboard_real_key_pressed s k =
      set_level_from_modifiers
        { s with modifiers := pressMods s.modifier_behavior s.modifiers sym.modifier_mask } := by
  obtain ⟨g, l, b, μ⟩ := s
  unfold eek_keyboard_real_key_pressed
  rcases b with _ | _ | _ <;>
    by_cases hm : sym.modifier_mask = 0 <;>
      simp_all [pressMods]

theorem key_released_eq_of_no_symbol (s : EekKeyboardState) (k : EekKey)
    (h : k.get_symbol_at_index s.group s.level = Option.none) :
    eek_keyboard_real_key_released s k = (s, []) := by
  unfold eek_keyboard_real_key_released
  simp [h]

theorem key_released_eq_of_symbol (s : EekKeyboardState) (k : EekKey) (sym : EekSymbol)
    (h : k.get_symbol_at_index s.group s.level = Option.some sym) :
    eek_keyboard_real_key_released s k =
      set_level_from_modifiers
        { s with modifiers := releaseMods s.modifier_behavior s.modifiers sym.modifier_mask } := by
  obtain ⟨g, l, b, μ⟩ := s
  unfold eek_keyboard_real_key_released
  rcases b with _ | _ | _ <;>
    by_cases hm : sym.modifier_mask = 0 <;>
      simp_all [releaseMods]

theorem lor_eq_xor_of_land_eq_zero {μ m : Nat} (h : μ &&& m = 0) :
    μ ||| m = μ ^^^ m := by
  refine Nat.eq_of_testBit_eq fun i => ?_
  have hb : Nat.testBit (μ &&& m) i = false := by rw [h]; simp
  rw [Nat.testBit_land] at hb
  rw [Nat.testBit_lor, Nat.testBit_xor]
  cases hμ : μ.testBit i <;> cases hm : m.testBit i <;> simp_all

theorem key_pressed_group_behavior (s : EekKeyboardState) (k : EekKey) :
    (eek_keyboard_real_key_pressed s k).1.group = s.group ∧
    (eek_keyboard_real_key_pressed s k).1.modifier_behavior = s.modifier_behavior := by
  cases hsym : k.get_symbol_at_index s.group s.level with
  | none =>
      rw [key_pressed_eq_of_no_symbol s k hsym]
      split <;> simp
  | some sym =>
      rw [key_pressed_eq_of_symbol s k sym hsym, set_level_from_modifiers_eq]
      simp

theorem key_released_group_behavior (s : EekKeyboardState) (k : EekKey) :
    (eek_keyboard_real_key_released s k).1.group = s.group ∧
    (eek_keyboard_real_key_released s k).1.modifier_behavior = s.modifier_behavior := by
  cases hsym : k.get_symbol_at_index s.group s.level with
  | none =>
      rw [key_released_eq_of_no_symbol s k hsym]
      exact ⟨rfl, rfl⟩
  | some sym =>
      rw [key_released_eq_of_symbol s k sym hsym, set_level_from_modifiers_eq]
      simp

theorem key_pressed_consistent (s : EekKeyboardState) (k : EekKey)
    (hb : s.modifier_behavior ≠ LATCH) (hc : Consistent s) :
    Consistent (eek_keyboard_real_key_pressed s k).1 := by
  cases hsym : k.get_symbol_at_index s.group s.level with
  | none =>
      rw [key_pressed_eq_of_no_symbol s k hsym]
      simpa [if_neg hb] using hc
  | some sym =>
      rw [key_pressed_eq_of_symbol s k sym hsym, set_level_from_modifiers_eq]
      simp [Consistent]

theorem key_released_consistent (s : EekKeyboardState) (k : EekKey)
    (hc : Consistent s) :
    Consistent (eek_keyboard_real_key_released s k).1 := by
  cases hsym : k.get_symbol_at_index s.group s.level with
  | none =>
      rw [key_released_eq_of_no_symbol s k hsym]
      exact hc
  | some sym =>
      rw [key_released_eq_of_symbol s k sym hsym, set_level_from_modifiers_eq]
      simp [Consistent]

theorem applyEvent_consistent (s : EekKeyboardState) (e : EekKey × Bool)
    (hb : s.modifier_behavior ≠ LATCH) (hc : Consistent s) :
    Consistent (applyEvent s e) := by
  unfold applyEvent
  split
  · exact key_pressed_consistent s e.1 hb hc
  · exact key_released_consistent s e.1 hc

theorem applyEvent_behavior (s : EekKeyboardState) (e : EekKey × Bool) :
    (applyEvent s e).modifier_behavior = s.modifier_behavior := by
  unfold applyEvent
  split
  · exact (key_pressed_group_behavior s e.1).2
  · exact (key_released_group_behavior s e.1).2

theorem foldl_applyEvent_consistent (es : List (EekKey × Bool)) (s : EekKeyboardState)
    (hb : s.modifier_behavior ≠ LATCH) (hc : Consistent s) :
    Consistent (es.foldl applyEvent s) := by
  induction es generalizing s with
  | nil => exact hc
  | cons e es ih =>
      refine ih (applyEvent s e) ?_ (applyEvent_consistent s e hb hc)
      rw [applyEvent_behavior]
      exact hb

/-- C1 (counterexample): under LATCH, pressing a key with no symbol at the
current `(group, level)` does NOT leave the state unchanged: the modifier
mask is reset to 0 before the symbol lookup, so a latched mask is lost. -/
theorem press_no_symbol_frame_cex :
    emptyKey.get_symbol_at_index latchShiftState.group latchShiftState.level
      = Option.none ∧
    latchShiftState.modifiers = 1 ∧
    (eek_keyboard_real_key_pressed latchShiftState emptyKey).1.modifiers = 0 ∧
    eek_keyboard_real_key_pressed latchShiftState emptyKey ≠ (latchShiftState, []) := by
  refine ⟨rfl, rfl, rfl, ?_⟩
  intro hcontra
  have : (eek_keyboard_real_key_pressed latchShiftState emptyKey).1.modifiers
      = latchShiftState.modifiers := by rw [hcontra]
  simp [latchShiftState] at this
  exact absurd this (by decide)

/-- C1 (amended): pressing a key with no symbol at the current
`(group, level)` emits nothing and leaves group, level and behavior
unchanged; the modifier mask is also unchanged under NONE and LOCK, but
under LATCH it is reset to 0 (the unconditional latch pre-reset). -/
theorem press_no_symbol_frame (s : EekKeyboardState) (k : EekKey)
    (h : k.get_symbol_at_index s.group s.level = Option.none) :
    (eek_keyboard_real_key_pressed s k).2 = [] ∧
    (eek_keyboard_real_key_pressed s k).1.group = s.group ∧
    (eek_keyboard_real_key_pressed s k).1.level = s.level ∧
    (eek_keyboard_real_key_pressed s k).1.modifier_behavior = s.modifier_behavior ∧
    (eek_keyboard_real_key_pressed s k).1.modifiers
      = (if s.modifier_behavior = LATCH then 0 else s.modifiers) := by
  rw [key_pressed_eq_of_no_symbol s k h]
  split <;> simp

/-- C1 (witness): the amended statement at a concrete input. -/
theorem press_no_symbol_frame_witness :
    emptyKey.get_symbol_at_index noneShiftState.group noneShiftState.level
      = Option.none ∧
    ((eek_keyboard_real_key_pressed noneShiftState emptyKey).2 = [] ∧
     (eek_keyboard_real_key_pressed noneShiftState emptyKey).1.group = noneShiftState.group ∧
     (eek_keyboard_real_key_pressed noneShiftState emptyKey).1.level = noneShiftState.level ∧
     (eek_keyboard_real_key_pressed noneShiftState emptyKey).1.modifier_behavior
       = noneShiftState.modifier_behavior ∧
     (eek_keyboard_real_key_pressed noneShiftState emptyKey).1.modifiers
       = (if noneShiftState.modifier_behavior = LATCH then 0 else noneShiftState.modifiers)) :=
  ⟨rfl, press_no_symbol_frame noneShiftState emptyKey rfl⟩

/-- C2 (counterexample): under LATCH the level/mask correspondence is not
an invariant: from the initial state, press Shift (mask 1, level 1), then
press a key with no symbol at `(0, 1)` — the latch pre-reset clears the
mask but the early return skips the level recompute, leaving level 1 with
an empty mask (whose derived level is 0). -/
theorem level_mask_consistency_cex :
    (runEvents LATCH [(shiftKey, true), (emptyKey, true)]).level = 1 ∧
    (runEvents LATCH [(shiftKey, true), (emptyKey, true)]).modifiers = 0 ∧
    (runEvents LATCH [(shiftKey, true), (emptyKey, true)]).level ≠
      Int.ofNat (set_level_from_modifiers_level
        (runEvents LATCH [(shiftKey, true), (emptyKey, true)]).modifiers) := by
  refine ⟨rfl, rfl, ?_⟩
  intro h
  rw [show (runEvents LATCH [(shiftKey, true), (emptyKey, true)]).level = 1 from rfl] at h
  rw [show (runEvents LATCH [(shiftKey, true), (emptyKey, true)]).modifiers = 0 from rfl] at h
  exact absurd h (by decide)

/-- C2 (amended): with modifier behavior NONE or LOCK, after any sequence
of press/release events from the initial state the stored level equals
the level derived from the modifier mask, and that derivation is
level = 2·(MOD5 bit set) + 1·(SHIFT bit set).  (Under LATCH the invariant
fails, see the counterexample.) -/
theorem level_mask_consistency (b : EekModifierBehavior) (hb : b ≠ LATCH)
    (es : List (EekKey × Bool)) :
    (runEvents b es).level
      = Int.ofNat (set_level_from_modifiers_level (runEvents b es).modifiers) ∧
    ∀ m : Nat, set_level_from_modifiers_level m
      = (if m &&& EEK_MOD5_MASK ≠ 0 then 2 else 0)
        + (if m &&& EEK_SHIFT_MASK ≠ 0 then 1 else 0) := by
  constructor
  · refine foldl_applyEvent_consistent es _ hb ?_
    show (0 : Int) = Int.ofNat (set_level_from_modifiers_level 0)
    rfl
  · intro m
    unfold set_level_from_modifiers_level
    split <;> split <;> rfl

/-- C3: under LATCH the mask is reset to empty before the new contribution of this press
is evaluated, on every press: the resulting mask is exactly
the modifier mask of the resolved symbol (0 when the cell is empty), whatever
the previous mask was — so a latched modifier survives at most one press. -/
theorem latch_reset_on_press (s : EekKeyboardState) (k : EekKey)
    (hb : s.modifier_behavior = LATCH) :
    (eek_keyboard_real_key_pressed s k).1.modifiers =
      ((k.get_symbol_at_index s.group s.level).map EekSymbol.modifier_mask).getD 0 := by
  cases hsym : k.get_symbol_at_index s.group s.level with
  | none =>
      rw [key_pressed_eq_of_no_symbol s k hsym]
      simp [hb]
  | some sym =>
      rw [key_pressed_eq_of_symbol s k sym hsym, set_level_from_modifiers_eq]
      simp [hb, pressMods]

/-- C3 (witness): the statement at a concrete input — a latched Shift
(mask 1) is discarded when the Mod5 key is pressed, leaving mask 128. -/
theorem latch_reset_on_press_witness :
    latchShiftState.modifier_behavior = LATCH ∧
    (eek_keyboard_real_key_pressed latchShiftState mod5Key).1.modifiers =
      ((mod5Key.get_symbol_at_index latchShiftState.group latchShiftState.level).map
        EekSymbol.modifier_mask).getD 0 :=
  ⟨rfl, latch_reset_on_press latchShiftState mod5Key rfl⟩

/-- C4 (counterexample): under LATCH the new mask is NOT `old OR m`: with
a latched Shift (mask 1), pressing the Mod5 key (symbol mask 128) yields
mask 128, not 1 ||| 128 = 129 — the pre-reset empties the mask first. -/
theorem press_modifier_update_cex :
    latchShiftState.modifier_behavior = LATCH ∧
    mod5Key.get_symbol_at_index latchShiftState.group latchShiftState.level
      = Option.some ⟨EEK_MOD5_MASK⟩ ∧
    EEK_MOD5_MASK ≠ 0 ∧
    (eek_keyboard_real_key_pressed latchShiftState mod5Key).1.modifiers = 128 ∧
    (eek_keyboard_real_key_pressed latchShiftState mod5Key).1.modifiers ≠
      latchShiftState.modifiers ||| EEK_MOD5_MASK := by
  refine ⟨rfl, rfl, by decide, rfl, ?_⟩
  rw [show (eek_keyboard_real_key_pressed latchShiftState mod5Key).1.modifiers = 128 from rfl]
  decide

/-- C4 (amended): a press that resolves a symbol updates the mask by:
NONE — OR the non-zero symbol mask into the old mask; LATCH — the new
mask is exactly the symbol mask (the pre-reset empties the old one
before the OR); LOCK — XOR the non-zero symbol mask into the old mask;
a zero symbol mask leaves the mask unchanged apart from the LATCH
pre-reset. -/
theorem press_modifier_update (s : EekKeyboardState) (k : EekKey) (sym : EekSymbol)
    (h : k.get_symbol_at_index s.group s.level = Option.some sym) :
    (eek_keyboard_real_key_pressed s k).1.modifiers =
      match s.modifier_behavior with
      | NONE => if sym.modifier_mask ≠ 0
                then s.modifiers ||| sym.modifier_mask else s.modifiers
      | LATCH => sym.modifier_mask
      | LOCK => if sym.modifier_mask ≠ 0
                then s.modifiers ^^^ sym.modifier_mask else s.modifiers := by
  rw [key_pressed_eq_of_symbol s k sym h, set_level_from_modifiers_eq]
  rcases hb : s.modifier_behavior with _ | _ | _ <;> simp [pressMods, hb]

/-- C4 (witness): the amended statement at a concrete input (behavior
NONE, Shift symbol pressed from the initial state). -/
theorem press_modifier_update_witness :
    shiftKey.get_symbol_at_index eek_keyboard_init.group eek_keyboard_init.level
      = Option.some ⟨EEK_SHIFT_MASK⟩ ∧
    (eek_keyboard_real_key_pressed eek_keyboard_init shiftKey).1.modifiers =
      match eek_keyboard_init.modifier_behavior with
      | NONE => if (⟨EEK_SHIFT_MASK⟩ : EekSymbol).modifier_mask ≠ 0
                then eek_keyboard_init.modifiers ||| (⟨EEK_SHIFT_MASK⟩ : EekSymbol).modifier_mask
                else eek_keyboard_init.modifiers
      | LATCH => (⟨EEK_SHIFT_MASK⟩ : EekSymbol).modifier_mask
      | LOCK => if (⟨EEK_SHIFT_MASK⟩ : EekSymbol).modifier_mask ≠ 0
                then eek_keyboard_init.modifiers ^^^ (⟨EEK_SHIFT_MASK⟩ : EekSymbol).modifier_mask
                else eek_keyboard_init.modifiers :=
  ⟨rfl, press_modifier_update eek_keyboard_init shiftKey ⟨EEK_SHIFT_MASK⟩ rfl⟩

/-- C5: a release that resolves a symbol with a non-zero modifier mask
clears the bits of that symbol from the mask under NONE, and leaves the mask
unchanged under LATCH and LOCK. -/
theorem release_modifier_update (s : EekKeyboardState) (k : EekKey) (sym : EekSymbol)
    (h : k.get_symbol_at_index s.group s.level = Option.some sym)
    (hm : sym.modifier_mask ≠ 0) :
    (eek_keyboard_real_key_released s k).1.modifiers =
      if s.modifier_behavior = NONE
      then s.modifiers &&& guintNot sym.modifier_mask
      else s.modifiers := by
  rw [key_released_eq_of_symbol s k sym h, set_level_from_modifiers_eq]
  rcases hb : s.modifier_behavior with _ | _ | _ <;> simp [releaseMods, hb, hm]

/-- C5 (witness): the statement at a concrete input — releasing Shift
under NONE clears the SHIFT bit. -/
theorem release_modifier_update_witness :
    shiftKey.get_symbol_at_index noneShiftState.group noneShiftState.level
      = Option.some ⟨EEK_SHIFT_MASK⟩ ∧
    (⟨EEK_SHIFT_MASK⟩ : EekSymbol).modifier_mask ≠ 0 ∧
    (eek_keyboard_real_key_released noneShiftState shiftKey).1.modifiers =
      if noneShiftState.modifier_behavior = NONE
      then noneShiftState.modifiers &&& guintNot (⟨EEK_SHIFT_MASK⟩ : EekSymbol).modifier_mask
      else noneShiftState.modifiers :=
  ⟨rfl, by decide,
   release_modifier_update noneShiftState shiftKey ⟨EEK_SHIFT_MASK⟩ rfl (by decide)⟩

/-- C6: under LOCK, for a modifier key whose symbol (at the relevant
cells) carries mask `m` disjoint from the current mask, press–release
toggles `m` on (and the level reflects it in between), a second
press–release toggles it back off, restoring the starting state exactly;
an even number of press–release pairs is the identity on the state. -/
theorem lock_double_press_toggle (s : EekKeyboardState) (k : EekKey) (m : Nat)
    (hb : s.modifier_behavior = LOCK) (hm : m ≠ 0)
    (hd : s.modifiers &&& m = 0)
    (hc : s.level = Int.ofNat (set_level_from_modifiers_level s.modifiers))
    (h1 : k.get_symbol_at_index s.group s.level = Option.some ⟨m⟩)
    (h2 : k.get_symbol_at_index s.group
        (Int.ofNat (set_level_from_modifiers_level (s.modifiers ||| m)))
      = Option.some ⟨m⟩) :
    (eek_keyboard_real_key_pressed s k).1.modifiers = s.modifiers ||| m ∧
    (eek_keyboard_real_key_pressed s k).1.level
      = Int.ofNat (set_level_from_modifiers_level (s.modifiers ||| m)) ∧
    pressReleasePair k s = (eek_keyboard_real_key_pressed s k).1 ∧
    pressReleasePair k (pressReleasePair k s) = s ∧
    ∀ n : Nat, (pressReleasePair k)^[2 * n] s = s := by
  have hxor : s.modifiers ||| m = s.modifiers ^^^ m := lor_eq_xor_of_land_eq_zero hd
  rw [hxor] at h2
  have hA : (eek_keyboard_real_key_pressed s k).1
      = { s with modifiers := s.modifiers ^^^ m,
                 level := Int.ofNat (set_level_from_modifiers_level (s.modifiers ^^^ m)) } := by
    rw [key_pressed_eq_of_symbol s k ⟨m⟩ h1, set_level_from_modifiers_eq]
    simp [pressMods, hb, hm]
  have hB : (eek_keyboard_real_key_released
      { s with modifiers := s.modifiers ^^^ m,
               level := Int.ofNat (set_level_from_modifiers_level (s.modifiers ^^^ m)) } k).1
      = { s with modifiers := s.modifiers ^^^ m,
                 level := Int.ofNat (set_level_from_modifiers_level (s.modifiers ^^^ m)) } := by
    rw [key_released_eq_of_symbol _ k ⟨m⟩ h2, set_level_from_modifiers_eq]
    simp [releaseMods, hb, hm]
  have hC : (eek_keyboard_real_key_pressed
      { s with modifiers := s.modifiers ^^^ m,
               level := Int.ofNat (set_level_from_modifiers_level (s.modifiers ^^^ m)) } k).1
      = s := by
    rw [key_pressed_eq_of_symbol _ k ⟨m⟩ h2, set_level_from_modifiers_eq]
    simp [pressMods, hb, hm, Nat.xor_cancel_right]
    cases s
    simp_all
  have hD : (eek_keyboard_real_key_released s k).1 = s := by
    rw [key_released_eq_of_symbol s k ⟨m⟩ h1, set_level_from_modifiers_eq]
    simp [releaseMods, hb, hm]
    cases s
    simp_all
  have hpair1 : pressReleasePair k s
      = { s with modifiers := s.modifiers ^^^ m,
                 level := Int.ofNat (set_level_from_modifiers_level (s.modifiers ^^^ m)) } := by
    unfold pressReleasePair
    rw [hA, hB]
  have hpair2 : pressReleasePair k (pressReleasePair k s) = s := by
    rw [hpair1]
    unfold pressReleasePair
    rw [hC, hD]
  refine ⟨?_, ?_, ?_, hpair2, ?_⟩
  · rw [hA, hxor]
  · rw [hA, hxor]
  · rw [hpair1, hA]
  · intro n
    induction n with
    | zero => rfl
    | succ n ih =>
        rw [Nat.mul_succ, Function.iterate_add_apply]
        have h2it : (pressReleasePair k)^[2] s = s := hpair2
        rw [h2it, ih]

/-- C6 (witness): the statement at a concrete input — Shift under LOCK
from the empty-mask base state. -/
theorem lock_double_press_toggle_witness :
    lockBaseState.modifier_behavior = LOCK ∧
    (EEK_SHIFT_MASK ≠ 0 ∧ lockBaseState.modifiers &&& EEK_SHIFT_MASK = 0) ∧
    (eek_keyboard_real_key_pressed lockBaseState shiftKey).1.modifiers
      = lockBaseState.modifiers ||| EEK_SHIFT_MASK ∧
    (eek_keyboard_real_key_pressed lockBaseState shiftKey).1.level
      = Int.ofNat (set_level_from_modifiers_level
          (lockBaseState.modifiers ||| EEK_SHIFT_MASK)) ∧
    pressReleasePair shiftKey (pressReleasePair shiftKey lockBaseState) = lockBaseState ∧
    (pressReleasePair shiftKey)^[2 * 2] lockBaseState = lockBaseState := by
  have h := lock_double_press_toggle lockBaseState shiftKey EEK_SHIFT_MASK
    rfl (by decide) (by decide) rfl rfl rfl
  exact ⟨rfl, ⟨by decide, by decide⟩, h.1, h.2.1, h.2.2.2.1, h.2.2.2.2 2⟩

/-- C7: each press or release event yields one deterministic new state,
and the list of `symbol-index-changed` notifications it emits is exactly
one (carrying the new `(group, level)`) when the `(group, level)` pair
changed, and empty (with the indices stored unchanged) when it did not. -/
theorem single_notification_per_event (s : EekKeyboardState) (k : EekKey) :
    ((eek_keyboard_real_key_pressed s k).2 =
      if ((eek_keyboard_real_key_pressed s k).1.group,
          (eek_keyboard_real_key_pressed s k).1.level) = (s.group, s.level)
      then []
      else [((eek_keyboard_real_key_pressed s k).1.group,
             (eek_keyboard_real_key_pressed s k).1.level)]) ∧
    ((eek_keyboard_real_key_released s k).2 =
      if ((eek_keyboard_real_key_released s k).1.group,
          (eek_keyboard_real_key_released s k).1.level) = (s.group, s.level)
      then []
      else [((eek_keyboard_real_key_released s k).1.group,
             (eek_keyboard_real_key_released s k).1.level)]) := by
  constructor
  · cases hsym : k.get_symbol_at_index s.group s.level with
    | none =>
        rw [key_pressed_eq_of_no_symbol s k hsym]
        split <;> simp
    | some sym =>
        rw [key_pressed_eq_of_symbol s k sym hsym, set_level_from_modifiers_eq]
        by_cases hl : s.level
            = Int.ofNat (set_level_from_modifiers_level
                (pressMods s.modifier_behavior s.modifiers sym.modifier_mask)) <;>
          simp [hl, eq_comm]
  · cases hsym : k.get_symbol_at_index s.group s.level with
    | none =>
        rw [key_released_eq_of_no_symbol s k hsym]
        simp
    | some sym =>
        rw [key_released_eq_of_symbol s k sym hsym, set_level_from_modifiers_eq]
        by_cases hl : s.level
            = Int.ofNat (set_level_from_modifiers_level
                (releaseMods s.modifier_behavior s.modifiers sym.modifier_mask)) <;>
          simp [hl, eq_comm]

/-- C8: under NONE, from mask={SHIFT}, level=1, releasing the Shift key
alone empties the mask, recomputes level 0, and that release by itself
emits the `symbol-index-changed` notification carrying `(0, 0)`. -/
theorem release_triggers_level_notification (k : EekKey) (sym : EekSymbol)
    (h : k.get_symbol_at_index 0 1 = Option.some sym)
    (hm : sym.modifier_mask = EEK_SHIFT_MASK) :
    eek_keyboard_real_key_released noneShiftState k =
      ({ group := 0, level := 0, modifier_behavior := NONE, modifiers := 0 }, [(0, 0)]) := by
  obtain ⟨mm⟩ := sym
  simp only at hm
  subst hm
  rw [key_released_eq_of_symbol noneShiftState k ⟨EEK_SHIFT_MASK⟩
    (by exact h), set_level_from_modifiers_eq]
  decide

/-- C8 (witness): the statement at the concrete Shift key. -/
theorem release_triggers_level_notification_witness :
    shiftKey.get_symbol_at_index 0 1 = Option.some ⟨EEK_SHIFT_MASK⟩ ∧
    eek_keyboard_real_key_released noneShiftState shiftKey =
      ({ group := 0, level := 0, modifier_behavior := NONE, modifiers := 0 }, [(0, 0)]) :=
  ⟨rfl, release_triggers_level_notification shiftKey ⟨EEK_SHIFT_MASK⟩ rfl rfl⟩

/-- C10: `eek_keyboard_set_group` changes only the group and
`eek_keyboard_set_level` changes only the level; level/group, modifier
mask and modifier behavior are otherwise untouched by each. -/
theorem set_group_set_level_frame (s : EekKeyboardState) (g l : Int) :
    (eek_keyboard_set_group s g).1 = { s with group := g } ∧
    (eek_keyboard_set_level s l).1 = { s with level := l } :=
  ⟨set_symbol_index_fst s g s.level, set_symbol_index_fst s s.group l⟩

/-- C2 (witness): the amended statement at a concrete input (a press and
a release of Shift under NONE, and the bit→level mapping at mask 129). -/
theorem level_mask_consistency_witness :
    NONE ≠ LATCH ∧
    (runEvents NONE [(shiftKey, true), (shiftKey, false)]).level
      = Int.ofNat (set_level_from_modifiers_level
          (runEvents NONE [(shiftKey, true), (shiftKey, false)]).modifiers) ∧
    set_level_from_modifiers_level 129
      = (if 129 &&& EEK_MOD5_MASK ≠ 0 then 2 else 0)
        + (if 129 &&& EEK_SHIFT_MASK ≠ 0 then 1 else 0) :=
  ⟨by decide,
   (level_mask_consistency NONE (by decide) [(shiftKey, true), (shiftKey, false)]).1,
   (level_mask_consistency NONE (by decide) [(shiftKey, true), (shiftKey, false)]).2 129⟩

theorem mem_flatten_sections {x : EekKey} {sections : List EekSection} :
    x ∈ sections.foldr (fun sec acc => sec.keys ++ acc) [] ↔
      ∃ sec ∈ sections, x ∈ sec.keys := by
  induction sections with
  | nil => simp
  | cons sec rest ih => simp [List.mem_append, ih]

/-- C9: the keycode search scans sections in insertion order and returns
the first key (in the flattened insertion order) whose keycode matches —
it agrees with the spec-side first-match definition — and when no key of
any section carries the keycode it returns none (a plain "not found",
never an error); being a pure function, it leaves the state unchanged. -/
theorem find_key_by_keycode_first_match (sections : List EekSection) (keycode : Nat) :
    eek_keyboard_real_find_key_by_keycode sections keycode
      = spec_find_key_by_keycode sections keycode ∧
    ((∀ sec ∈ sections, ∀ k ∈ sec.keys, k.keycode ≠ keycode) →
      eek_keyboard_real_find_key_by_keycode sections keycode = Option.none) := by
  have heq : eek_keyboard_real_find_key_by_keycode sections keycode
      = spec_find_key_by_keycode sections keycode := by
    induction sections with
    | nil => rfl
    | cons sec rest ih =>
        unfold eek_keyboard_real_find_key_by_keycode
        rw [ih]
        unfold spec_find_key_by_keycode eek_section_find_key_by_keycode
        rw [List.foldr_cons, List.find?_append]
        cases hf : List.find? (fun k => k.keycode == keycode) sec.keys <;>
          simp [hf, Option.or]
  refine ⟨heq, fun habs => ?_⟩
  rw [heq]
  unfold spec_find_key_by_keycode
  rw [List.find?_eq_none]
  intro x hx
  rw [mem_flatten_sections] at hx
  obtain ⟨sec, hsec, hxk⟩ := hx
  simpa using habs sec hsec x hxk

/-- C9 (witness): the statement at concrete inputs — keycode 11 is found
in the second section (first match, the Mod5 key), and keycode 99 is
present nowhere, so the search returns none. -/
theorem find_key_by_keycode_first_match_witness :
    eek_keyboard_real_find_key_by_keycode [⟨[shiftKey]⟩, ⟨[mod5Key, emptyKey]⟩] 11
      = spec_find_key_by_keycode [⟨[shiftKey]⟩, ⟨[mod5Key, emptyKey]⟩] 11 ∧
    eek_keyboard_real_find_key_by_keycode [⟨[shiftKey]⟩, ⟨[mod5Key, emptyKey]⟩] 99
      = Option.none :=
  ⟨(find_key_by_keycode_first_match [⟨[shiftKey]⟩, ⟨[mod5Key, emptyKey]⟩] 11).1,
   (find_key_by_keycode_first_match [⟨[shiftKey]⟩, ⟨[mod5Key, emptyKey]⟩] 99).2
     (by decide)⟩

